import Mathlib

/-!
Shallow embedding of kubie's `src/settings.rs`: the settings-file locator
(`Settings::path`), the loader (`Settings::load`) and the cluster-config
set resolver (`Settings::get_kube_configs_paths`), together with the
helpers `expanduser`, `is_kubie_settings_name`, `parse_kubeconfig_env`
and `find_settings_in_dir`.

Paths are strings.  The process environment is a function
`String → Option String` (a set variable yields `some value`, an unset
one `none`, matching `std::env::var`).  The filesystem and the external
glob library are an oracle record `Fs`: `isFile`/`isDir`/`pathExists`
mirror `Path::is_file`/`is_dir`/`exists`, `glob` mirrors
`glob::glob(pattern)` (an outer `Except` for pattern errors, and each
yielded item is itself an `Except` like the iterator's
`Result<PathBuf, GlobError>`), and `readSettings` mirrors
`File::open` + `serde_yaml::from_reader`.
-/

namespace Kubie

/-- Split a character list on `'/'`, keeping empty segments
(the char-level core used to model `Path::file_name`). -/
def splitSlash : List Char → List (List Char)
  | [] => [[]]
  | c :: rest =>
    if c = '/' then [] :: splitSlash rest
    else
      match splitSlash rest with
      | [] => [[c]]
      | cur :: rs => (c :: cur) :: rs

/-- A path component is kept by `Path::components` iff it is neither empty
nor the `.` component. -/
def keepComp (c : List Char) : Bool :=
  !(c == [] || c == ['.'])

/-- The last normal component of a component list: drop empty and `.`
segments, take the last, and refuse a trailing `..` (as
`Path::components().next_back()` does). -/
def fileNameL_core (comps : List (List Char)) : Option (List Char) :=
  match (comps.filter keepComp).getLast? with
  | some c => if c = ['.', '.'] then none else some c
  | none => none

/-- Model of `Path::file_name` on the characters of a path: the last normal
component; `none` when the path ends in `..` or has no normal
component. -/
def fileNameL (l : List Char) : Option (List Char) :=
  fileNameL_core (splitSlash l)

/-- Model of `Path::file_name` followed by `to_str` (always unicode here). -/
def fileName (p : String) : Option String :=
  (fileNameL p.data).map String.mk

/-- Model of `Path::join` on characters: `PathBuf::push` adds a separator unless
the base is empty or already ends with one (the joined name is always a
relative filename in this codebase). -/
def joinChars (dir name : List Char) : List Char :=
  if dir = [] then name
  else if dir.getLast? = some '/' then dir ++ name
  else dir ++ '/' :: name

/-- Model of `Path::join` for string paths. -/
def pathJoin (dir name : String) : String :=
  String.mk (joinChars dir.data name.data)

/-- Rust `expanduser`: replace a leading `~/` by `<home>/`; any other string is
returned unchanged (`path.strip_prefix("~/")`). -/
def expanduser (home : String) (path : String) : String :=
  match path.data with
  | '~' :: '/' :: stripped => home ++ "/" ++ String.mk stripped
  | _ => path

/-- The `Fzf` settings record. -/
structure Fzf where
  mouse : Bool
  reverse : Bool
  ignore_case : Bool
  info_hidden : Bool
  prompt : Option String
  color : Option String
deriving DecidableEq, Repr

/-- The `Default` derive of `Fzf`: `bool`s false, `Option`s `None`. -/
def Fzf.default : Fzf :=
  { mouse := false, reverse := false, ignore_case := false,
    info_hidden := false, prompt := none, color := none }

/-- The `Configs` record: ordered include and exclude glob patterns
(the Rust field `include` is a Lean keyword, hence `include_`). -/
structure Configs where
  include_ : List String
  exclude : List String
deriving DecidableEq, Repr

/-- Rust `default_include_path()`: the seven conventional globs under home. -/
def default_include_path (home_dir : String) : List String :=
  [ home_dir ++ "/.kube/config",
    home_dir ++ "/.kube/*.yml",
    home_dir ++ "/.kube/*.yaml",
    home_dir ++ "/.kube/configs/*.yml",
    home_dir ++ "/.kube/configs/*.yaml",
    home_dir ++ "/.kube/kubie/*.yml",
    home_dir ++ "/.kube/kubie/*.yaml" ]

/-- Rust `default_exclude_path()`: empty. -/
def default_exclude_path : List String := []

/-- Rust `Configs::default`. -/
def Configs.default (home_dir : String) : Configs :=
  { include_ := default_include_path home_dir,
    exclude := default_exclude_path }

/-- The `Prompt` settings record. -/
structure Prompt where
  disable : Bool
  show_depth : Bool
  zsh_use_rps1 : Bool
  fish_use_rprompt : Bool
  xonsh_use_right_prompt : Bool
deriving DecidableEq, Repr

/-- Rust `Prompt::default`. -/
def Prompt.default : Prompt :=
  { disable := false, show_depth := true, zsh_use_rps1 := false,
    fish_use_rprompt := false, xonsh_use_right_prompt := false }

/-- Rust `ContextHeaderBehavior` (`auto` is the derived default). -/
inductive ContextHeaderBehavior where
  | auto
  | always
  | never
deriving DecidableEq, Repr

/-- Rust `ValidateNamespacesBehavior` (`true` is the derived default); the
Rust variants `True`/`False`/`Partial` are not legal Lean names. -/
inductive ValidateNamespacesBehavior where
  | true_
  | false_
  | partial_
deriving DecidableEq, Repr

/-- The `Behavior` settings record. -/
structure Behavior where
  validate_namespaces : ValidateNamespacesBehavior
  print_context_in_exec : ContextHeaderBehavior
  allow_multiple_context_patterns : Bool
deriving DecidableEq, Repr

/-- The `Default` derive of `Behavior`. -/
def Behavior.default : Behavior :=
  { validate_namespaces := .true_,
    print_context_in_exec := .auto,
    allow_multiple_context_patterns := false }

/-- The `Hooks` settings record. -/
structure Hooks where
  start_ctx : String
  stop_ctx : String
deriving DecidableEq, Repr

/-- The `Default` derive of `Hooks`. -/
def Hooks.default : Hooks :=
  { start_ctx := "", stop_ctx := "" }

/-- The top-level `Settings` record. -/
structure Settings where
  shell : Option String
  default_editor : Option String
  configs : Configs
  prompt : Prompt
  behavior : Behavior
  hooks : Hooks
  fzf : Fzf
deriving DecidableEq, Repr

/-- Rust `Settings::default()` (every field its own default; `configs` defaults
depend on the memoized home directory). -/
def Settings.default (home_dir : String) : Settings :=
  { shell := none, default_editor := none,
    configs := Configs.default home_dir,
    prompt := Prompt.default, behavior := Behavior.default,
    hooks := Hooks.default, fzf := Fzf.default }

/-- The filesystem / external-library oracle.  `glob` returns, like
`glob::glob`, either a pattern error or the list of iterator items, each
item itself an `Except` like `Result<PathBuf, GlobError>`.
`readSettings` is `File::open` + `serde_yaml::from_reader` with its
`could not parse kubie config` context. -/
structure Fs where
  isFile : String → Bool
  isDir : String → Bool
  pathExists : String → Bool
  glob : String → Except String (List (Except String String))
  readSettings : String → Except String Settings

/-- Rust `is_kubie_settings_name`: the path's filename is `kubie.yaml` or
`kubie.yml`. -/
def is_kubie_settings_name (path : String) : Bool :=
  match fileName path with
  | some "kubie.yaml" => true
  | some "kubie.yml" => true
  | _ => false

/-- Rust `parse_kubeconfig_env`: split a set, non-empty `KUBECONFIG` on `:`
(`val.split(':').map(PathBuf::from).collect()`, here a character-level
split); unset or empty yields the empty list. -/
def parse_kubeconfig_env (env : String → Option String) : List String :=
  match env "KUBECONFIG" with
  | some val => if val ≠ "" then (val.data.splitOn ':').map String.mk else []
  | none => []

/-- Rust `find_settings_in_dir`: the first of `dir/kubie.yaml`, `dir/kubie.yml`
that is a regular file. -/
def find_settings_in_dir (fs : Fs) (dir : String) : Option String :=
  (["kubie.yaml", "kubie.yml"] : List String).findSome? fun name =>
    let c := pathJoin dir name
    if fs.isFile c then some c else none

/-- The `for entry in parse_kubeconfig_env()` loop of `Settings::path`:
an entry that is a regular file bearing a settings filename is returned
as is; otherwise the entry is searched as a directory; otherwise the next
entry is tried. -/
def path_from_entries (fs : Fs) : List String → Option String
  | [] => none
  | entry :: rest =>
    if is_kubie_settings_name entry && fs.isFile entry then some entry
    else
      match find_settings_in_dir fs entry with
      | some s => some s
      | none => path_from_entries fs rest

/-- The XDG step of `Settings::path`:
`std::env::var("XDG_CONFIG_HOME").unwrap_or_else(|_| format!("{}/.config", home_dir()))` —
the fallback applies only when the variable is unset (`var` errors);
a set-but-empty variable is used verbatim. -/
def xdgConfigDir (home : String) (env : String → Option String) : String :=
  match env "XDG_CONFIG_HOME" with
  | some v => v
  | none => home ++ "/.config"

/-- Rust `Settings::path()`. -/
def Settings.path (home : String) (env : String → Option String) (fs : Fs) : String :=
  match path_from_entries fs (parse_kubeconfig_env env) with
  | some s => s
  | none =>
    match find_settings_in_dir fs (pathJoin (xdgConfigDir home env) "kubie") with
    | some s => s
    | none => home ++ "/.kube/kubie.yaml"

/-- Rust `Settings::load()`: parse the file at the resolved path when it
exists, else take the all-defaults record; then push the resolved path
onto `configs.exclude`. -/
def Settings.load (home : String) (env : String → Option String) (fs : Fs) :
    Except String Settings := do
  let settings_path_str := Settings.path home env fs
  let settings ←
    if fs.pathExists settings_path_str then
      fs.readSettings settings_path_str
    else
      pure (Settings.default home)
  pure { settings with
         configs := { settings.configs with
                      exclude := settings.configs.exclude ++ [settings_path_str] } }

/-- Run one glob and drain its iterator
(`for matched in glob(pat)? { let path = matched?; ... }`): a pattern
error or any item error fails the whole expansion. -/
def globMatches (fs : Fs) (pat : String) : Except String (List String) := do
  let items ← fs.glob pat
  items.mapM fun r => r

/-- Insert a glob match unless it bears a settings filename (the filter
applied to directory matches in the environment phase). -/
def insertIfNotSettings (paths : Finset String) (p : String) : Finset String :=
  if !is_kubie_settings_name p then insert p paths else paths

/-- One `KUBECONFIG` entry of `get_kube_configs_paths`: an existing
regular file that is not a settings file is inserted; a directory has
`<entry>/*.yml` then `<entry>/*.yaml` expanded with settings-named
matches filtered out; anything else is skipped. -/
def envEntryStep (fs : Fs) (paths : Finset String) (entry : String) :
    Except String (Finset String) :=
  if fs.isFile entry && !is_kubie_settings_name entry then
    pure (insert entry paths)
  else if fs.isDir entry then
    (["*.yml", "*.yaml"] : List String).foldlM
      (fun acc pattern => do
        let ms ← globMatches fs (entry ++ "/" ++ pattern)
        pure (ms.foldl insertIfNotSettings acc))
      paths
  else
    pure paths

/-- The environment phase: fold `envEntryStep` over the parsed entries. -/
def envPhase (fs : Fs) (paths : Finset String) (entries : List String) :
    Except String (Finset String) :=
  entries.foldlM (envEntryStep fs) paths

/-- The include phase: each pattern is home-expanded, globbed, and every
match inserted (no filename filter here). -/
def includePhase (home : String) (fs : Fs) (paths : Finset String)
    (incs : List String) : Except String (Finset String) :=
  incs.foldlM
    (fun acc inc => do
      let ms ← globMatches fs (expanduser home inc)
      pure (ms.foldl (fun s p => insert p s) acc))
    paths

/-- The exclude phase: each pattern is home-expanded, globbed, and every
match removed from the set. -/
def excludePhase (home : String) (fs : Fs) (paths : Finset String)
    (excs : List String) : Except String (Finset String) :=
  excs.foldlM
    (fun acc exc => do
      let ms ← globMatches fs (expanduser home exc)
      pure (ms.foldl Finset.erase acc))
    paths

/-- Rust `Settings::get_kube_configs_paths()`: environment entries, then
include patterns, then exclude patterns, over an initially empty set. -/
def Settings.get_kube_configs_paths (home : String) (env : String → Option String)
    (fs : Fs) (self : Settings) : Except String (Finset String) := do
  let paths ← envPhase fs ∅ (parse_kubeconfig_env env)
  let paths ← includePhase home fs paths self.configs.include_
  excludePhase home fs paths self.configs.exclude

/-! ### Concrete environments and filesystems for evaluation -/

/-- An environment with no variables set. -/
def envNone : String → Option String := fun _ => none

/-- An empty filesystem whose globs all match nothing. -/
def fsEmpty : Fs :=
  { isFile := fun _ => false, isDir := fun _ => false, pathExists := fun _ => false,
    glob := fun _ => .ok [], readSettings := fun _ => .error "unused" }

/-- The record `load` produces from `envNone`/`fsEmpty`: all defaults with
the default settings path appended to the excludes. -/
def loadedDefault : Settings :=
  { Settings.default "/home/u" with
    configs := { Configs.default "/home/u" with
                 exclude := ["/home/u/.kube/kubie.yaml"] } }

/-- An environment with `KUBECONFIG` set to the single directory `/tmp/d`. -/
def envD : String → Option String :=
  fun k => if k = "KUBECONFIG" then some "/tmp/d" else none

/-- A filesystem where `/tmp/d` is a directory holding `a.yaml`, `b.yml`,
`c.txt` and `kubie.yaml` (the scenario of the repository's
`test_kubeconfig_env_directory`). -/
def fsD : Fs :=
  { isFile := fun p => p = "/tmp/d/a.yaml" || p = "/tmp/d/b.yml" ||
      p = "/tmp/d/c.txt" || p = "/tmp/d/kubie.yaml"
    isDir := fun p => p = "/tmp/d"
    pathExists := fun p => p = "/tmp/d"
    glob := fun pat =>
      if pat = "/tmp/d/*.yml" then .ok [.ok "/tmp/d/b.yml"]
      else if pat = "/tmp/d/*.yaml" then .ok [.ok "/tmp/d/a.yaml", .ok "/tmp/d/kubie.yaml"]
      else .ok []
    readSettings := fun _ => .error "unused" }

/-- A `Settings` value with empty include and exclude lists, against `fsD`. -/
def sNoPatterns : Settings :=
  { Settings.default "/h" with configs := { include_ := [], exclude := [] } }

/-- An environment with `XDG_CONFIG_HOME` set to the empty string and `KUBECONFIG` unset. -/
def envXdgEmpty : String → Option String :=
  fun k => if k = "XDG_CONFIG_HOME" then some "" else none

/-- A filesystem where only `/h/.config/kubie/kubie.yaml` is a regular
file. -/
def fsXdg : Fs :=
  { isFile := fun p => p = "/h/.config/kubie/kubie.yaml"
    isDir := fun _ => false
    pathExists := fun p => p = "/h/.config/kubie/kubie.yaml"
    glob := fun _ => .ok [], readSettings := fun _ => .error "unused" }

/-- A filesystem where the glob `/x/*.yaml` matches `/x/kubie.yaml`. -/
def fsInc : Fs :=
  { isFile := fun _ => false, isDir := fun _ => false, pathExists := fun _ => false,
    glob := fun pat => if pat = "/x/*.yaml" then .ok [.ok "/x/kubie.yaml"] else .ok []
    readSettings := fun _ => .error "unused" }

/-- A `Settings` value whose single include pattern is `/x/*.yaml`. -/
def sInc : Settings :=
  { Settings.default "/h" with configs := { include_ := ["/x/*.yaml"], exclude := [] } }

/-- A filesystem whose glob library rejects every pattern. -/
def fsBadGlob : Fs :=
  { isFile := fun _ => false, isDir := fun _ => false, pathExists := fun _ => false,
    glob := fun _ => .error "bad pattern", readSettings := fun _ => .error "unused" }

/-- A `Settings` value whose single include pattern is the malformed
glob `[`. -/
def sBadInc : Settings :=
  { Settings.default "/h" with configs := { include_ := ["["], exclude := [] } }

/-- A filesystem for the include/exclude interplay: `/cfg/*.yaml` matches
`a.yaml` and `b.yaml`, and the literal pattern `/cfg/b.yaml` matches
itself. -/
def fsCfg : Fs :=
  { isFile := fun _ => false, isDir := fun _ => false, pathExists := fun _ => false,
    glob := fun pat =>
      if pat = "/cfg/*.yaml" then .ok [.ok "/cfg/a.yaml", .ok "/cfg/b.yaml"]
      else if pat = "/cfg/b.yaml" then .ok [.ok "/cfg/b.yaml"]
      else .ok []
    readSettings := fun _ => .error "unused" }

/-- A `Settings` value including `/cfg/*.yaml` and excluding
`/cfg/b.yaml`. -/
def sCfg : Settings :=
  { Settings.default "/h" with
    configs := { include_ := ["/cfg/*.yaml"], exclude := ["/cfg/b.yaml"] } }

/-! ### Reduction helpers for the `Except` monad -/

theorem ebind_ok {α β : Type} (a : α) (f : α → Except String β) :
    (Except.ok a >>= f) = f a := rfl

theorem ebind_err {α β : Type} (e : String) (f : α → Except String β) :
    ((Except.error e : Except String α) >>= f) = Except.error e := rfl

theorem epure {α : Type} (a : α) : (pure a : Except String α) = Except.ok a := rfl

/-! ### Path-utility lemmas -/

theorem splitSlash_ne_nil (l : List Char) : splitSlash l ≠ [] := by
  induction l with
  | nil => simp [splitSlash]
  | cons c rest ih =>
    simp only [splitSlash]
    split
    · simp
    · cases h : splitSlash rest with
      | nil => exact absurd h ih
      | cons a as => simp

theorem splitSlash_append (xs ys : List Char) :
    splitSlash (xs ++ '/' :: ys) = splitSlash xs ++ splitSlash ys := by
  induction xs with
  | nil => simp [splitSlash]
  | cons c xs ih =>
    by_cases hc : c = '/'
    · subst hc
      simp only [List.cons_append, splitSlash, if_pos rfl]
      simp [List.append_eq, ih]
    · cases h : splitSlash xs with
      | nil => exact absurd h (splitSlash_ne_nil xs)
      | cons a as =>
        simp only [List.cons_append, splitSlash, if_neg hc]
        rw [List.append_eq, ih, h]
        rfl

theorem splitSlash_no_slash (l : List Char) (h : '/' ∉ l) : splitSlash l = [l] := by
  induction l with
  | nil => rfl
  | cons c rest ih =>
    have hc : c ≠ '/' := fun e => h (e ▸ List.mem_cons_self c rest)
    have hr : '/' ∉ rest := fun e => h (List.mem_cons_of_mem c e)
    simp only [splitSlash, if_neg hc, ih hr]

theorem fileNameL_core_concat (pre : List (List Char)) (nm : List Char)
    (hkeep : keepComp nm = true) (h4 : nm ≠ ['.', '.']) :
    fileNameL_core (pre ++ [nm]) = some nm := by
  unfold fileNameL_core
  rw [List.filter_append]
  have hf : List.filter keepComp [nm] = [nm] := by
    simp [List.filter_cons, hkeep]
  rw [hf, List.getLast?_concat]
  simp [h4]

theorem fileNameL_joinChars (d nm : List Char) (h1 : nm ≠ []) (h2 : '/' ∉ nm)
    (h3 : nm ≠ ['.']) (h4 : nm ≠ ['.', '.']) :
    fileNameL (joinChars d nm) = some nm := by
  have hkeep : keepComp nm = true := by
    simp only [keepComp, Bool.not_eq_true', Bool.or_eq_false_iff]
    exact ⟨beq_eq_false_iff_ne.mpr h1, beq_eq_false_iff_ne.mpr h3⟩
  have hnm : splitSlash nm = [nm] := splitSlash_no_slash nm h2
  by_cases hd : d = []
  · rw [joinChars, if_pos hd, fileNameL, hnm]
    exact fileNameL_core_concat [] nm hkeep h4
  · by_cases hl : d.getLast? = some '/'
    · obtain ⟨d', rfl⟩ := List.getLast?_eq_some_iff.mp hl
      rw [joinChars, if_neg hd, if_pos hl]
      have he : (d' ++ ['/']) ++ nm = d' ++ '/' :: nm := by simp
      rw [he, fileNameL, splitSlash_append, hnm]
      exact fileNameL_core_concat (splitSlash d') nm hkeep h4
    · rw [joinChars, if_neg hd, if_neg hl, fileNameL, splitSlash_append, hnm]
      exact fileNameL_core_concat (splitSlash d) nm hkeep h4

theorem is_kubie_of_fileName_yaml (p : String) (h : fileName p = some "kubie.yaml") :
    is_kubie_settings_name p = true := by
  unfold is_kubie_settings_name
  rw [h]
  rfl

theorem is_kubie_of_fileName_yml (p : String) (h : fileName p = some "kubie.yml") :
    is_kubie_settings_name p = true := by
  unfold is_kubie_settings_name
  rw [h]
  rfl

theorem is_kubie_pathJoin_yaml (dir : String) :
    is_kubie_settings_name (pathJoin dir "kubie.yaml") = true := by
  apply is_kubie_of_fileName_yaml
  show (fileNameL (joinChars dir.data "kubie.yaml".data)).map String.mk = some "kubie.yaml"
  rw [fileNameL_joinChars dir.data "kubie.yaml".data (by decide) (by decide)
    (by decide) (by decide)]
  rfl

theorem is_kubie_pathJoin_yml (dir : String) :
    is_kubie_settings_name (pathJoin dir "kubie.yml") = true := by
  apply is_kubie_of_fileName_yml
  show (fileNameL (joinChars dir.data "kubie.yml".data)).map String.mk = some "kubie.yml"
  rw [fileNameL_joinChars dir.data "kubie.yml".data (by decide) (by decide)
    (by decide) (by decide)]
  rfl

theorem find_settings_in_dir_eq (fs : Fs) (dir : String) :
    find_settings_in_dir fs dir =
      if fs.isFile (pathJoin dir "kubie.yaml") then some (pathJoin dir "kubie.yaml")
      else if fs.isFile (pathJoin dir "kubie.yml") then some (pathJoin dir "kubie.yml")
      else none := by
  unfold find_settings_in_dir
  by_cases h1 : fs.isFile (pathJoin dir "kubie.yaml") <;>
    by_cases h2 : fs.isFile (pathJoin dir "kubie.yml") <;>
      simp [List.findSome?_cons, List.findSome?_nil, h1, h2]

theorem find_settings_in_dir_is_kubie (fs : Fs) (dir s : String)
    (h : find_settings_in_dir fs dir = some s) : is_kubie_settings_name s = true := by
  rw [find_settings_in_dir_eq] at h
  split_ifs at h with h1 h2
  · cases h
    exact is_kubie_pathJoin_yaml dir
  · cases h
    exact is_kubie_pathJoin_yml dir

theorem path_from_entries_is_kubie (fs : Fs) (entries : List String) (s : String)
    (h : path_from_entries fs entries = some s) : is_kubie_settings_name s = true := by
  induction entries with
  | nil => simp [path_from_entries] at h
  | cons e rest ih =>
    unfold path_from_entries at h
    split at h
    · rename_i hg
      cases h
      exact (Bool.and_eq_true _ _).mp hg |>.1
    · rename_i hg
      cases hf : find_settings_in_dir fs e with
      | some t =>
        rw [hf] at h
        cases h
        exact find_settings_in_dir_is_kubie fs e s hf
      | none =>
        rw [hf] at h
        exact ih h

/-! ### Shape of a successful `load` -/

theorem load_ok_shape (home : String) (env : String → Option String) (fs : Fs)
    (s : Settings) (h : Settings.load home env fs = Except.ok s) :
    ∃ s0 : Settings,
      ((fs.pathExists (Settings.path home env fs) = true ∧
        fs.readSettings (Settings.path home env fs) = Except.ok s0) ∨
       (fs.pathExists (Settings.path home env fs) = false ∧
        s0 = Settings.default home)) ∧
      s = { s0 with configs := { s0.configs with
              exclude := s0.configs.exclude ++ [Settings.path home env fs] } } := by
  unfold Settings.load at h
  by_cases he : fs.pathExists (Settings.path home env fs) = true
  · rw [if_pos he] at h
    cases hr : fs.readSettings (Settings.path home env fs) with
    | error e =>
      rw [hr, ebind_err] at h
      exact Except.noConfusion h
    | ok s0 =>
      rw [hr, ebind_ok] at h
      exact ⟨s0, Or.inl ⟨he, rfl⟩, (Except.ok.inj h).symm⟩
  · rw [if_neg he] at h
    simp only [epure, ebind_ok] at h
    exact ⟨Settings.default home,
      Or.inr ⟨Bool.eq_false_iff.mpr he, rfl⟩,
      (Except.ok.inj h).symm⟩

/-! ### Claim theorems -/

/-- C1: after a successful `load` the resolved settings path is a member
of `configs.exclude`, and is its last element — whether the settings file
existed (and parsed) or the all-defaults record was used. -/
theorem load_excludes_settings_path (home : String) (env : String → Option String)
    (fs : Fs) (s : Settings) (h : Settings.load home env fs = Except.ok s) :
    Settings.path home env fs ∈ s.configs.exclude ∧
    s.configs.exclude.getLast? = some (Settings.path home env fs) := by
  obtain ⟨s0, _, rfl⟩ := load_ok_shape home env fs s h
  constructor
  · exact List.mem_append_right _ (List.mem_singleton.mpr rfl)
  · exact List.getLast?_concat _

/-- C1 witness: on an empty filesystem `load` succeeds with the defaults
record, and the default settings path is the last exclude entry. -/
theorem load_excludes_settings_path_witness :
    Settings.path "/home/u" envNone fsEmpty ∈ loadedDefault.configs.exclude ∧
    loadedDefault.configs.exclude.getLast? =
      some (Settings.path "/home/u" envNone fsEmpty) :=
  load_excludes_settings_path "/home/u" envNone fsEmpty loadedDefault (by rfl)

/-- C10: `load` only appends the resolved settings path at the end of
`configs.exclude`; every other field — and every pre-existing exclude
entry, in order — is exactly what the parser produced, or what the
default record contained when the file did not exist. -/
theorem load_frame (home : String) (env : String → Option String) (fs : Fs)
    (s0 s : Settings)
    (h0 : (fs.pathExists (Settings.path home env fs) = true ∧
           fs.readSettings (Settings.path home env fs) = Except.ok s0) ∨
          (fs.pathExists (Settings.path home env fs) = false ∧
           s0 = Settings.default home))
    (h : Settings.load home env fs = Except.ok s) :
    s.shell = s0.shell ∧ s.default_editor = s0.default_editor ∧
    s.configs.include_ = s0.configs.include_ ∧
    s.prompt = s0.prompt ∧ s.behavior = s0.behavior ∧
    s.hooks = s0.hooks ∧ s.fzf = s0.fzf ∧
    s.configs.exclude = s0.configs.exclude ++ [Settings.path home env fs] := by
  obtain ⟨s1, h1, rfl⟩ := load_ok_shape home env fs s h
  have hs : s1 = s0 := by
    rcases h0 with ⟨hex, hrd⟩ | ⟨hex, rfl⟩ <;>
      rcases h1 with ⟨hex1, hrd1⟩ | ⟨hex1, h1'⟩
    · rw [hrd] at hrd1
      exact (Except.ok.inj hrd1).symm
    · rw [hex] at hex1
      exact absurd hex1 (by simp)
    · rw [hex] at hex1
      exact absurd hex1 (by simp)
    · exact h1'
  subst hs
  exact ⟨rfl, rfl, rfl, rfl, rfl, rfl, rfl, rfl⟩

/-- C10 witness: with no settings file on disk, the loaded record agrees
with the all-defaults record on every field except the appended exclude
entry. -/
theorem load_frame_witness :
    loadedDefault.shell = (Settings.default "/home/u").shell ∧
    loadedDefault.default_editor = (Settings.default "/home/u").default_editor ∧
    loadedDefault.configs.include_ = (Settings.default "/home/u").configs.include_ ∧
    loadedDefault.prompt = (Settings.default "/home/u").prompt ∧
    loadedDefault.behavior = (Settings.default "/home/u").behavior ∧
    loadedDefault.hooks = (Settings.default "/home/u").hooks ∧
    loadedDefault.fzf = (Settings.default "/home/u").fzf ∧
    loadedDefault.configs.exclude =
      (Settings.default "/home/u").configs.exclude ++
        [Settings.path "/home/u" envNone fsEmpty] :=
  load_frame "/home/u" envNone fsEmpty (Settings.default "/home/u") loadedDefault
    (Or.inr ⟨rfl, rfl⟩) (by rfl)

/-- C4: the string returned by `Settings::path` always bears a recognized
settings filename (`kubie.yaml`/`kubie.yml`) or is exactly the fixed
default `<home>/.kube/kubie.yaml`; it is never an environment entry with
an unrecognized filename. -/
theorem path_returns_recognized_or_default (home : String)
    (env : String → Option String) (fs : Fs) :
    is_kubie_settings_name (Settings.path home env fs) = true ∨
    Settings.path home env fs = home ++ "/.kube/kubie.yaml" := by
  unfold Settings.path
  cases hp : path_from_entries fs (parse_kubeconfig_env env) with
  | some s => exact Or.inl (path_from_entries_is_kubie fs _ s hp)
  | none =>
    cases hf : find_settings_in_dir fs (pathJoin (xdgConfigDir home env) "kubie") with
    | some s => exact Or.inl (find_settings_in_dir_is_kubie fs _ s hf)
    | none => exact Or.inr rfl

/-- C6: `expanduser` maps `~/X` to `<home>/X` and leaves every string
that does not start with `~/` (including `~`, `~user/...`, and a
mid-string `~/`) unchanged. -/
theorem expanduser_spec (home : String) :
    (∀ X : String, expanduser home ("~/" ++ X) = home ++ "/" ++ X) ∧
    (∀ p : String, p.data.take 2 ≠ ['~', '/'] → expanduser home p = p) ∧
    expanduser home "~" = "~" ∧
    expanduser home "~user/x" = "~user/x" ∧
    expanduser home "a~/b" = "a~/b" := by
  refine ⟨fun X => rfl, fun p hp => ?_, rfl, rfl, rfl⟩
  unfold expanduser
  split
  · rename_i stripped heq
    exact absurd (by rw [heq]; rfl) hp
  · rfl

/-- C8: `parse_kubeconfig_env` yields `[]` when `KUBECONFIG` is unset or
empty (never an error), and otherwise the entries of the value split on
`:` in left-to-right order (re-joining the entries with `:` recovers the
value). -/
theorem parse_kubeconfig_env_spec (env : String → Option String) :
    (env "KUBECONFIG" = none → parse_kubeconfig_env env = []) ∧
    (env "KUBECONFIG" = some "" → parse_kubeconfig_env env = []) ∧
    (∀ val : String, env "KUBECONFIG" = some val → val ≠ "" →
      parse_kubeconfig_env env = (val.data.splitOn ':').map String.mk ∧
      [':'].intercalate (val.data.splitOn ':') = val.data) := by
  refine ⟨fun h => ?_, fun h => ?_, fun val h hne => ⟨?_, ?_⟩⟩
  · simp [parse_kubeconfig_env, h]
  · simp [parse_kubeconfig_env, h]
  · simp [parse_kubeconfig_env, h, hne]
  · exact List.intercalate_splitOn val.data ':'

/-- C6 witness: `~/cfg` expands under home `/home/u`, and `~zed` (no
`~/`) is returned unchanged. -/
theorem expanduser_spec_witness :
    expanduser "/home/u" ("~/" ++ "cfg") = "/home/u" ++ "/" ++ "cfg" ∧
    expanduser "/home/u" "~zed" = "~zed" :=
  ⟨(expanduser_spec "/home/u").1 "cfg",
   (expanduser_spec "/home/u").2.1 "~zed" (by decide)⟩

/-- C8 witness: with `KUBECONFIG=a:b` the parser yields the split entries
`["a", "b"]` in order. -/
theorem parse_kubeconfig_env_spec_witness :
    parse_kubeconfig_env (fun k => if k = "KUBECONFIG" then some "a:b" else none) =
      ("a:b".data.splitOn ':').map String.mk ∧
    ("a:b".data.splitOn ':').map String.mk = ["a", "b"] :=
  ⟨((parse_kubeconfig_env_spec
      (fun k => if k = "KUBECONFIG" then some "a:b" else none)).2.2
      "a:b" rfl (by decide)).1,
   by decide⟩

/-! ### Lemmas about the three resolver phases -/

theorem mem_foldl_erase (ms : List String) :
    ∀ (t : Finset String) (q : String),
      q ∈ ms.foldl Finset.erase t → q ∈ t ∧ q ∉ ms := by
  induction ms with
  | nil =>
    intro t q h
    exact ⟨h, by simp⟩
  | cons m ms ih =>
    intro t q h
    simp only [List.foldl_cons] at h
    obtain ⟨h1, h2⟩ := ih (t.erase m) q h
    obtain ⟨hq, ht⟩ := Finset.mem_erase.mp h1
    exact ⟨ht, by simp [h2, hq]⟩

theorem foldl_erase_subset (ms : List String) :
    ∀ t : Finset String, ms.foldl Finset.erase t ⊆ t := by
  induction ms with
  | nil => intro t; exact Finset.Subset.refl t
  | cons m ms ih =>
    intro t
    simp only [List.foldl_cons]
    exact (ih (t.erase m)).trans (Finset.erase_subset m t)

theorem foldl_erase_of_all_not_mem (ms : List String) :
    ∀ t : Finset String, (∀ p ∈ ms, p ∉ t) → ms.foldl Finset.erase t = t := by
  induction ms with
  | nil => intro t _; rfl
  | cons m ms ih =>
    intro t hall
    simp only [List.foldl_cons]
    rw [Finset.erase_eq_of_not_mem (hall m (List.mem_cons_self m ms))]
    exact ih t fun p hp => hall p (List.mem_cons_of_mem m hp)

theorem mem_foldl_insertIfNotSettings (ms : List String) :
    ∀ (t : Finset String) (p : String),
      p ∈ ms.foldl insertIfNotSettings t →
      p ∈ t ∨ is_kubie_settings_name p = false := by
  induction ms with
  | nil => intro t p h; exact Or.inl h
  | cons m ms ih =>
    intro t p h
    simp only [List.foldl_cons] at h
    rcases ih _ p h with h' | h'
    · unfold insertIfNotSettings at h'
      split at h'
      · rename_i hm
        rcases Finset.mem_insert.mp h' with rfl | h''
        · exact Or.inr (by simpa using hm)
        · exact Or.inl h''
      · exact Or.inl h'
    · exact Or.inr h'

theorem envEntryStep_mem (fs : Fs) (t : Finset String) (entry : String)
    (t' : Finset String) (h : envEntryStep fs t entry = Except.ok t') :
    ∀ p ∈ t', p ∈ t ∨ is_kubie_settings_name p = false := by
  intro p hp
  unfold envEntryStep at h
  split at h
  · rename_i hg
    rw [epure] at h
    rw [← Except.ok.inj h] at hp
    rcases Finset.mem_insert.mp hp with rfl | h'
    · exact Or.inr (by simpa using ((Bool.and_eq_true _ _).mp hg).2)
    · exact Or.inl h'
  · split at h
    · cases hm1 : globMatches fs (entry ++ "/" ++ "*.yml") with
      | error e =>
        simp only [List.foldlM_cons, hm1, ebind_err] at h
        exact Except.noConfusion h
      | ok m1 =>
        cases hm2 : globMatches fs (entry ++ "/" ++ "*.yaml") with
        | error e =>
          simp only [List.foldlM_cons, List.foldlM_nil, hm1, hm2,
            ebind_ok, ebind_err, epure] at h
          exact Except.noConfusion h
        | ok m2 =>
          simp only [List.foldlM_cons, List.foldlM_nil, hm1, hm2,
            ebind_ok, ebind_err, epure] at h
          rw [← Except.ok.inj h] at hp
          rcases mem_foldl_insertIfNotSettings m2 _ p hp with h' | h'
          · rcases mem_foldl_insertIfNotSettings m1 _ p h' with h'' | h''
            · exact Or.inl h''
            · exact Or.inr h''
          · exact Or.inr h'
    · rw [epure] at h
      rw [← Except.ok.inj h] at hp
      exact Or.inl hp

theorem envPhase_mem (fs : Fs) (entries : List String) :
    ∀ t t' : Finset String, envPhase fs t entries = Except.ok t' →
      ∀ p ∈ t', p ∈ t ∨ is_kubie_settings_name p = false := by
  induction entries with
  | nil =>
    intro t t' h p hp
    rw [← Except.ok.inj h] at hp
    exact Or.inl hp
  | cons e es ih =>
    intro t t' h p hp
    cases hs : envEntryStep fs t e with
    | error e' =>
      simp only [envPhase, List.foldlM_cons, hs, ebind_err] at h
      exact Except.noConfusion h
    | ok t1 =>
      have h' : envPhase fs t1 es = Except.ok t' := by
        simpa only [envPhase, List.foldlM_cons, hs, ebind_ok] using h
      rcases ih t1 t' h' p hp with h'' | h''
      · exact envEntryStep_mem fs t e t1 hs p h''
      · exact Or.inr h''

theorem excludePhase_subset (home : String) (fs : Fs) (excs : List String) :
    ∀ t res : Finset String, excludePhase home fs t excs = Except.ok res →
      res ⊆ t := by
  induction excs with
  | nil =>
    intro t res h
    rw [← Except.ok.inj h]
  | cons e es ih =>
    intro t res h
    cases hm : globMatches fs (expanduser home e) with
    | error er =>
      simp only [excludePhase, List.foldlM_cons, hm, ebind_err] at h
      exact Except.noConfusion h
    | ok m0 =>
      have h' : excludePhase home fs (m0.foldl Finset.erase t) es = Except.ok res := by
        simpa only [excludePhase, List.foldlM_cons, hm, ebind_ok, epure] using h
      exact (ih _ res h').trans (foldl_erase_subset m0 t)

theorem excludePhase_excluded (home : String) (fs : Fs) (excs : List String) :
    ∀ t res : Finset String, excludePhase home fs t excs = Except.ok res →
      ∀ exc ∈ excs, ∀ ms, globMatches fs (expanduser home exc) = Except.ok ms →
        ∀ p ∈ ms, p ∉ res := by
  induction excs with
  | nil =>
    intro t res _ exc hexc
    simp at hexc
  | cons e es ih =>
    intro t res h exc hexc ms hms p hp hpres
    cases hm : globMatches fs (expanduser home e) with
    | error er =>
      simp only [excludePhase, List.foldlM_cons, hm, ebind_err] at h
      exact Except.noConfusion h
    | ok m0 =>
      have h' : excludePhase home fs (m0.foldl Finset.erase t) es = Except.ok res := by
        simpa only [excludePhase, List.foldlM_cons, hm, ebind_ok, epure] using h
      rcases List.mem_cons.mp hexc with rfl | hexc'
      · rw [hm] at hms
        rw [← Except.ok.inj hms] at hp
        have hsub := excludePhase_subset home fs es _ res h'
        exact (mem_foldl_erase m0 t p (hsub hpres)).2 hp
      · exact ih _ res h' exc hexc' ms hms p hp hpres

theorem excludePhase_noop (home : String) (fs : Fs) (excs : List String)
    (t : Finset String)
    (hall : ∀ exc ∈ excs, ∃ ms, globMatches fs (expanduser home exc) = Except.ok ms ∧
       ∀ p ∈ ms, p ∉ t) :
    excludePhase home fs t excs = Except.ok t := by
  induction excs with
  | nil => rfl
  | cons e es ih =>
    obtain ⟨ms, hms, hnot⟩ := hall e (List.mem_cons_self e es)
    have herase : ms.foldl Finset.erase t = t := foldl_erase_of_all_not_mem ms t hnot
    have hrest := ih fun exc hexc => hall exc (List.mem_cons_of_mem e hexc)
    simp only [excludePhase, List.foldlM_cons, hms, ebind_ok, epure, herase]
    exact hrest

theorem get_ok_decomp (home : String) (env : String → Option String) (fs : Fs)
    (self : Settings) (res : Finset String)
    (h : Settings.get_kube_configs_paths home env fs self = Except.ok res) :
    ∃ t u : Finset String,
      envPhase fs ∅ (parse_kubeconfig_env env) = Except.ok t ∧
      includePhase home fs t self.configs.include_ = Except.ok u ∧
      excludePhase home fs u self.configs.exclude = Except.ok res := by
  unfold Settings.get_kube_configs_paths at h
  cases h1 : envPhase fs ∅ (parse_kubeconfig_env env) with
  | error e =>
    rw [h1, ebind_err] at h
    exact Except.noConfusion h
  | ok t =>
    rw [h1, ebind_ok] at h
    cases h2 : includePhase home fs t self.configs.include_ with
    | error e =>
      rw [h2, ebind_err] at h
      exact Except.noConfusion h
    | ok u =>
      rw [h2, ebind_ok] at h
      exact ⟨t, u, rfl, h2, h⟩

/-- C5: in a successful resolution the exclude patterns act strictly after
the environment and include phases; every path matched by an exclude glob
is absent from the result; and excluding paths not in the set is a no-op
and not an error. -/
theorem exclude_applied_last (home : String) (env : String → Option String)
    (fs : Fs) (self : Settings) (res : Finset String)
    (h : Settings.get_kube_configs_paths home env fs self = Except.ok res) :
    (∃ t u : Finset String,
       envPhase fs ∅ (parse_kubeconfig_env env) = Except.ok t ∧
       includePhase home fs t self.configs.include_ = Except.ok u ∧
       excludePhase home fs u self.configs.exclude = Except.ok res) ∧
    (∀ exc ∈ self.configs.exclude, ∀ ms,
       globMatches fs (expanduser home exc) = Except.ok ms → ∀ p ∈ ms, p ∉ res) ∧
    (∀ (t : Finset String) (excs : List String),
       (∀ exc ∈ excs, ∃ ms, globMatches fs (expanduser home exc) = Except.ok ms ∧
          ∀ p ∈ ms, p ∉ t) →
       excludePhase home fs t excs = Except.ok t) := by
  obtain ⟨t, u, h1, h2, h3⟩ := get_ok_decomp home env fs self res h
  refine ⟨⟨t, u, h1, h2, h3⟩, ?_, ?_⟩
  · exact fun exc hexc ms hms p hp =>
      excludePhase_excluded home fs self.configs.exclude u res h3 exc hexc ms hms p hp
  · exact fun t' excs hall => excludePhase_noop home fs excs t' hall

/-- C5 witness: `/cfg/b.yaml` is matched by the exclude pattern and is
absent from the resolved set `{/cfg/a.yaml}`; excluding it from a set it
does not belong to leaves that set unchanged without error. -/
theorem exclude_applied_last_witness :
    "/cfg/b.yaml" ∉ ({"/cfg/a.yaml"} : Finset String) ∧
    excludePhase "/h" fsCfg {"/q.yaml"} ["/cfg/b.yaml"] =
      Except.ok {"/q.yaml"} :=
  ⟨(exclude_applied_last "/h" envNone fsCfg sCfg {"/cfg/a.yaml"} (by rfl)).2.1
      "/cfg/b.yaml" (by decide) ["/cfg/b.yaml"] (by rfl) "/cfg/b.yaml" (by decide),
   (exclude_applied_last "/h" envNone fsCfg sCfg {"/cfg/a.yaml"} (by rfl)).2.2
      {"/q.yaml"} ["/cfg/b.yaml"] (by
        intro exc hexc
        rw [List.mem_singleton.mp hexc]
        exact ⟨["/cfg/b.yaml"], by rfl, by decide⟩)⟩

/-- C7: a failure of any phase of `get_kube_configs_paths` is the result
of the whole operation — no path set is returned — and a successful
result presupposes every phase succeeded. -/
theorem resolve_atomic_error (home : String) (env : String → Option String)
    (fs : Fs) (self : Settings) :
    (∀ e, envPhase fs ∅ (parse_kubeconfig_env env) = Except.error e →
       Settings.get_kube_configs_paths home env fs self = Except.error e) ∧
    (∀ (t : Finset String) e,
       envPhase fs ∅ (parse_kubeconfig_env env) = Except.ok t →
       includePhase home fs t self.configs.include_ = Except.error e →
       Settings.get_kube_configs_paths home env fs self = Except.error e) ∧
    (∀ (t u : Finset String) e,
       envPhase fs ∅ (parse_kubeconfig_env env) = Except.ok t →
       includePhase home fs t self.configs.include_ = Except.ok u →
       excludePhase home fs u self.configs.exclude = Except.error e →
       Settings.get_kube_configs_paths home env fs self = Except.error e) ∧
    (∀ res, Settings.get_kube_configs_paths home env fs self = Except.ok res →
       ∃ t u : Finset String,
         envPhase fs ∅ (parse_kubeconfig_env env) = Except.ok t ∧
         includePhase home fs t self.configs.include_ = Except.ok u ∧
         excludePhase home fs u self.configs.exclude = Except.ok res) := by
  refine ⟨fun e h1 => ?_, fun t e h1 h2 => ?_, fun t u e h1 h2 h3 => ?_,
    fun res h => get_ok_decomp home env fs self res h⟩
  · unfold Settings.get_kube_configs_paths
    rw [h1, ebind_err]
  · unfold Settings.get_kube_configs_paths
    rw [h1, ebind_ok, h2, ebind_err]
  · unfold Settings.get_kube_configs_paths
    rw [h1, ebind_ok, h2, ebind_ok, h3]

/-- C7 witness: a glob library that rejects the include pattern `[` makes
the whole resolution fail with that error, although the environment phase
had completed. -/
theorem resolve_atomic_error_witness :
    Settings.get_kube_configs_paths "/h" envNone fsBadGlob sBadInc =
      Except.error "bad pattern" :=
  (resolve_atomic_error "/h" envNone fsBadGlob sBadInc).2.1 ∅ "bad pattern"
    (by rfl) (by rfl)

/-- C9: an environment entry that is a regular non-settings file is
inserted; a directory entry has `*.yml` then `*.yaml` expanded with
settings-named matches filtered out; every other entry is skipped without
error. -/
theorem env_entry_step_spec (fs : Fs) (paths : Finset String) (entry : String) :
    (fs.isFile entry = true → is_kubie_settings_name entry = false →
       envEntryStep fs paths entry = Except.ok (insert entry paths)) ∧
    ((fs.isFile entry && !is_kubie_settings_name entry) = false →
       fs.isDir entry = true →
       ∀ m1 m2 : List String,
         globMatches fs (entry ++ "/" ++ "*.yml") = Except.ok m1 →
         globMatches fs (entry ++ "/" ++ "*.yaml") = Except.ok m2 →
         envEntryStep fs paths entry =
           Except.ok (m2.foldl insertIfNotSettings (m1.foldl insertIfNotSettings paths)) ∧
         (∀ p ∈ m2.foldl insertIfNotSettings (m1.foldl insertIfNotSettings paths),
            p ∈ paths ∨ is_kubie_settings_name p = false)) ∧
    ((fs.isFile entry && !is_kubie_settings_name entry) = false →
       fs.isDir entry = false →
       envEntryStep fs paths entry = Except.ok paths) := by
  refine ⟨fun hf hk => ?_, fun hg hd m1 m2 hm1 hm2 => ⟨?_, ?_⟩, fun hg hd => ?_⟩
  · unfold envEntryStep
    rw [if_pos (by simp [hf, hk])]
    rfl
  · unfold envEntryStep
    rw [if_neg (by simp [hg]), if_pos hd]
    simp only [List.foldlM_cons, List.foldlM_nil, hm1, hm2, ebind_ok, epure]
  · intro p hp
    rcases mem_foldl_insertIfNotSettings m2 _ p hp with h' | h'
    · rcases mem_foldl_insertIfNotSettings m1 _ p h' with h'' | h''
      · exact Or.inl h''
      · exact Or.inr h''
    · exact Or.inr h'
  · unfold envEntryStep
    rw [if_neg (by simp [hg]), if_neg (by simp [hd])]
    rfl

/-- C9 witness: the directory entry `/tmp/d` yields its `*.yml` then
`*.yaml` matches with `kubie.yaml` filtered out. -/
theorem env_entry_step_spec_witness :
    envEntryStep fsD ∅ "/tmp/d" =
      Except.ok ((["/tmp/d/a.yaml", "/tmp/d/kubie.yaml"] : List String).foldl
        insertIfNotSettings ((["/tmp/d/b.yml"] : List String).foldl
          insertIfNotSettings ∅)) ∧
    (∀ p ∈ (["/tmp/d/a.yaml", "/tmp/d/kubie.yaml"] : List String).foldl
        insertIfNotSettings ((["/tmp/d/b.yml"] : List String).foldl
          insertIfNotSettings ∅),
       p ∈ (∅ : Finset String) ∨ is_kubie_settings_name p = false) :=
  (env_entry_step_spec fsD ∅ "/tmp/d").2.1 (by decide) (by decide)
    ["/tmp/d/b.yml"] ["/tmp/d/a.yaml", "/tmp/d/kubie.yaml"] (by rfl) (by rfl)

/-- C2 counterexample: with `KUBECONFIG` unset and `XDG_CONFIG_HOME` set
to the empty string, the claim expects the locator to search
`<home>/.config/kubie` and find the existing file
`/h/.config/kubie/kubie.yaml`; the code instead uses the empty value
verbatim (searching the relative directory `kubie`) and returns the
default path. -/
theorem xdg_empty_counterexample :
    envXdgEmpty "KUBECONFIG" = none ∧
    envXdgEmpty "XDG_CONFIG_HOME" = some "" ∧
    fsXdg.isFile "/h/.config/kubie/kubie.yaml" = true ∧
    Settings.path "/h" envXdgEmpty fsXdg = "/h/.kube/kubie.yaml" ∧
    Settings.path "/h" envXdgEmpty fsXdg ≠ "/h/.config/kubie/kubie.yaml" := by
  decide

/-- C2 amended: when no environment entry yields a settings file, the
config directory is the value of `XDG_CONFIG_HOME` whenever the variable
is set — even to the empty string — and `<home>/.config` only when it is
unset; `kubie` is appended and the directory is probed for `kubie.yaml`
then `kubie.yml`. -/
theorem xdg_step_amended (home : String) (env : String → Option String) (fs : Fs)
    (h : path_from_entries fs (parse_kubeconfig_env env) = none) :
    (Settings.path home env fs =
      match find_settings_in_dir fs (pathJoin (xdgConfigDir home env) "kubie") with
      | some s => s
      | none => home ++ "/.kube/kubie.yaml") ∧
    (env "XDG_CONFIG_HOME" = none → xdgConfigDir home env = home ++ "/.config") ∧
    (∀ v, env "XDG_CONFIG_HOME" = some v → xdgConfigDir home env = v) ∧
    (find_settings_in_dir fs (pathJoin (xdgConfigDir home env) "kubie") =
      if fs.isFile (pathJoin (pathJoin (xdgConfigDir home env) "kubie") "kubie.yaml")
      then some (pathJoin (pathJoin (xdgConfigDir home env) "kubie") "kubie.yaml")
      else if fs.isFile (pathJoin (pathJoin (xdgConfigDir home env) "kubie") "kubie.yml")
      then some (pathJoin (pathJoin (xdgConfigDir home env) "kubie") "kubie.yml")
      else none) := by
  refine ⟨?_, fun hn => ?_, fun v hv => ?_, find_settings_in_dir_eq fs _⟩
  · unfold Settings.path
    rw [h]
  · unfold xdgConfigDir
    rw [hn]
  · unfold xdgConfigDir
    rw [hv]

/-- C2 amended witness: with `XDG_CONFIG_HOME=""` the config directory is
the empty string and the locator result is the XDG-step match. -/
theorem xdg_step_amended_witness :
    (Settings.path "/h" envXdgEmpty fsXdg =
      match find_settings_in_dir fsXdg (pathJoin (xdgConfigDir "/h" envXdgEmpty) "kubie") with
      | some s => s
      | none => "/h" ++ "/.kube/kubie.yaml") ∧
    xdgConfigDir "/h" envXdgEmpty = "" :=
  ⟨(xdg_step_amended "/h" envXdgEmpty fsXdg rfl).1,
   (xdg_step_amended "/h" envXdgEmpty fsXdg rfl).2.2.1 "" rfl⟩

/-- C3 counterexample: an include pattern may insert a path named
`kubie.yaml` into the resolved set — the filename filter is applied only
to environment entries, not to include-glob matches. -/
theorem include_settings_counterexample :
    Settings.get_kube_configs_paths "/h" envNone fsInc sInc =
      Except.ok {"/x/kubie.yaml"} ∧
    is_kubie_settings_name "/x/kubie.yaml" = true := by
  constructor
  · rfl
  · decide

/-- C3 amended: no path bearing a recognized settings filename ever enters
the result through the environment-variable phase; in particular when
`configs.include` is empty every member of the resolved set has a
non-settings filename. (Include-glob matches are inserted unfiltered.) -/
theorem no_settings_from_env_phase (home : String) (env : String → Option String)
    (fs : Fs) (self : Settings) (res : Finset String)
    (hinc : self.configs.include_ = [])
    (h : Settings.get_kube_configs_paths home env fs self = Except.ok res) :
    ∀ p ∈ res, is_kubie_settings_name p = false := by
  obtain ⟨t, u, h1, h2, h3⟩ := get_ok_decomp home env fs self res h
  intro p hp
  have hsub := excludePhase_subset home fs self.configs.exclude u res h3 hp
  rw [hinc] at h2
  have htu : t = u := Except.ok.inj h2
  rw [← htu] at hsub
  rcases envPhase_mem fs (parse_kubeconfig_env env) ∅ t h1 p hsub with h' | h'
  · exact absurd h' (Finset.not_mem_empty p)
  · exact h'

/-- C3 amended witness: with `KUBECONFIG=/tmp/d` and no include patterns,
the resolved member `/tmp/d/a.yaml` has a non-settings filename. -/
theorem no_settings_from_env_phase_witness :
    is_kubie_settings_name "/tmp/d/a.yaml" = false :=
  no_settings_from_env_phase "/h" envD fsD sNoPatterns
    {"/tmp/d/a.yaml", "/tmp/d/b.yml"} rfl (by rfl) "/tmp/d/a.yaml" (by decide)

end Kubie
